import Mathlib

/-!
Verification of the aggregation/report core of http_blaster (src/http_blaster.go).

All quantities are modelled over natural numbers: requests counts and iops are
Go uint64 values and latencies are non-negative time.Duration nanosecond counts;
no quantity in the aggregation can approach the 2^64 wraparound boundary without
the Go program itself being out of its operating domain, and every identity
proved here is preserved by reduction mod 2^64 since it is built from sums and
order comparisons of in-range values.  The two float64 operations of report()
(the per-executor product avg*total and the final division by the bucket total)
are modelled by exact natural-number product and truncating division, which is
their exact value whenever the operands are below 2^53 (float64 is exact on
integers there, and the Go conversion time.Duration(x) truncates toward zero).
-/

namespace HttpBlaster

/-- Result returned by an executor's Report() query: completed request count,
iops, and average/min/max latency in nanoseconds. -/
structure Result where
  total : ℕ
  iops : ℕ
  avg : ℕ
  min : ℕ
  max : ℕ
deriving DecidableEq

/-- One executor as seen by report(): its workload type string
(executor.Workload.Type), the Result its Report() returns, and whether
Report() also returned a non-nil error. -/
structure Exec where
  wtype : String
  result : Result
  err : Bool
deriving DecidableEq

/-- The local accumulator variables of report() (src lines 146-157). -/
structure AggState where
  requests : ℕ
  get_requests : ℕ
  put_requests : ℕ
  get_lat_max : ℕ
  get_lat_min : ℕ
  put_lat_max : ℕ
  put_lat_min : ℕ
  iops : ℕ
  get_iops : ℕ
  put_iops : ℕ
  get_avg_lat : ℕ
  put_avg_lat : ℕ
deriving DecidableEq

/-- All accumulators start at zero (src lines 146-157). -/
def initState : AggState :=
  ⟨0, 0, 0, 0, 0, 0, 0, 0, 0, 0, 0, 0⟩

/-- The max-merge of report(): if m < x then m = x (src lines 170-172, 183-185). -/
def maxMerge (m x : ℕ) : ℕ :=
  if m < x then x else m

/-- The min-merge of report(): a zero accumulator is treated as unset and
replaced, then if m > x then m = x (src lines 173-178, 186-191). -/
def minMerge (m x : ℕ) : ℕ :=
  if (if m = 0 then x else m) > x then x else if m = 0 then x else m

/-- One iteration of the loop of report() over executors (src lines 160-195):
the overall request counter always takes the Result's total; the GET bucket or
the PUT bucket (everything not of type GET) takes the total, iops, the product
avg*total, and the min/max merges; overall iops is increased at the end.
The loop of the source also appends Report() errors to a local slice; that
accumulation touches none of these variables and is modelled separately by
errCount. -/
def step (s : AggState) (e : Exec) : AggState :=
  if e.wtype = "GET" then
    { requests := s.requests + e.result.total
      get_requests := s.get_requests + e.result.total
      put_requests := s.put_requests
      get_lat_max := maxMerge s.get_lat_max e.result.max
      get_lat_min := minMerge s.get_lat_min e.result.min
      put_lat_max := s.put_lat_max
      put_lat_min := s.put_lat_min
      iops := s.iops + e.result.iops
      get_iops := s.get_iops + e.result.iops
      put_iops := s.put_iops
      get_avg_lat := s.get_avg_lat + e.result.avg * e.result.total
      put_avg_lat := s.put_avg_lat }
  else
    { requests := s.requests + e.result.total
      get_requests := s.get_requests
      put_requests := s.put_requests + e.result.total
      get_lat_max := s.get_lat_max
      get_lat_min := s.get_lat_min
      put_lat_max := maxMerge s.put_lat_max e.result.max
      put_lat_min := minMerge s.put_lat_min e.result.min
      iops := s.iops + e.result.iops
      get_iops := s.get_iops
      put_iops := s.put_iops + e.result.iops
      get_avg_lat := s.get_avg_lat
      put_avg_lat := s.put_avg_lat + e.result.avg * e.result.total }

/-- The whole executor loop of report() (src lines 160-195). -/
def loop (l : List Exec) : AggState :=
  List.foldl step initState l

/-- The two post-loop average divisions of report() (src lines 197-202): each
bucket average accumulator is divided by the bucket request count when that
count is non-zero.  The source performs the two conditional assignments in
sequence; they read and write disjoint fields, so they are rendered as one
record update. -/
def finalize (s : AggState) : AggState :=
  { s with
    get_avg_lat := if s.get_requests ≠ 0 then s.get_avg_lat / s.get_requests else s.get_avg_lat
    put_avg_lat := if s.put_requests ≠ 0 then s.put_avg_lat / s.put_requests else s.put_avg_lat }

/-- The aggregate state report() derives from the executor list. -/
def aggState (l : List Exec) : AggState :=
  finalize (loop l)

/-- The number of errors collected by the loop of report(): one per executor
whose Report() returned a non-nil error (src lines 158, 161-164). -/
def errCount (l : List Exec) : ℕ :=
  l.countP (fun e => e.err)

/-- One latency line of the report file: Sprintf of a fixed key, the latency
divided by 1000 (Go integer division of Nanoseconds() by 1e3), and the usec
suffix (src lines 231-233, 237-239). -/
def usec_line (pre : String) (lat : ℕ) : String :=
  pre ++ toString (lat / 1000) ++ "usec\n"

/-- The fifteen strings written to the results file by report(), in source
order (src lines 225-239). -/
def reportLines (s : AggState) : List String :=
  ["[global]\n",
   "overall_requests=" ++ toString s.requests ++ "\n",
   "overall_iops=" ++ toString s.iops ++ "\n",
   "\n[get]\n",
   "overall_requests=" ++ toString s.get_requests ++ "\n",
   "overall_iops=" ++ toString s.get_iops ++ "\n",
   usec_line "overall_lat_min=" s.get_lat_min,
   usec_line "overall_lat_max=" s.get_lat_max,
   usec_line "overall_lat_avg=" s.get_avg_lat,
   "\n[put]\n",
   "overall_requests=" ++ toString s.put_requests ++ "\n",
   "overall_iops=" ++ toString s.put_iops ++ "\n",
   usec_line "overall_lat_min=" s.put_lat_min,
   usec_line "overall_lat_max=" s.put_lat_max,
   usec_line "overall_lat_avg=" s.put_avg_lat]

/-- The full byte content of the results file. -/
def reportContent (s : AggState) : String :=
  String.join (reportLines s)

/-- report() as a whole: the file content it writes and the int it returns,
which is 2 when the error slice is non-empty and 0 otherwise
(src lines 241-247). -/
def report (l : List Exec) : String × ℕ :=
  (reportContent (aggState l), if 0 < errCount l then 2 else 0)

/-- The process exit status produced by main's tail (src lines 270-301):
exit(err_code) panics whenever err_code is non-zero, the deferred handle_exit
recovers the panic and calls os.Exit(1); with err_code zero, main returns
normally and the process exits 0. -/
def processExitStatus (l : List Exec) : ℕ :=
  if (report l).2 ≠ 0 then 1 else 0

/-- An executor whose Report() returned an error flag, dropped. -/
def clearErr (e : Exec) : Exec :=
  { e with err := false }

/-- The data of an executor that report() feeds into the aggregate: its
workload type and its Result. -/
def observables (e : Exec) : String × Result :=
  (e.wtype, e.result)

/-- The executors of the GET bucket (executor.Workload.Type == "GET"). -/
def getsOf (l : List Exec) : List Exec :=
  l.filter (fun e => decide (e.wtype = "GET"))

/-- The executors of the PUT bucket (every type other than GET). -/
def putsOf (l : List Exec) : List Exec :=
  l.filter (fun e => !(decide (e.wtype = "GET")))

/-- Two's-complement wraparound into the int32 range, as performed by Go's
atomic.AddInt32 on overflow. -/
def int32wrap (n : ℤ) : ℤ :=
  (n + 2 ^ 31) % 2 ^ 32 - 2 ^ 31

/-- get_workload_id (src lines 61-64): returns the current wl_id and leaves
the counter incremented (the deferred atomic.AddInt32 runs after the return
value is captured), wrapping as an int32. -/
def get_workload_id (s : ℤ) : ℤ × ℤ :=
  (s, int32wrap (s + 1))

/-- The ids handed out by n sequential calls to get_workload_id starting from
counter state s. -/
def id_list : ℕ → ℤ → List ℤ
  | 0, _ => []
  | n + 1, s => (get_workload_id s).1 :: id_list n (get_workload_id s).2

/-- Follows the spec's words: the minimum over a set of latency minima
(0 for an empty set, which carries no samples). -/
def spec_min : List ℕ → ℕ
  | [] => 0
  | x :: xs => xs.foldl Nat.min x

/-- Follows the spec's words: the maximum over a set of latency maxima
(0 for an empty set). -/
def spec_max (l : List ℕ) : ℕ :=
  l.foldl Nat.max 0

/-- Follows the spec's words: the min latencies of the GET-bucket Results
with total > 0. -/
def getPosMins (l : List Exec) : List ℕ :=
  ((getsOf l).filter (fun e => decide (0 < e.result.total))).map (fun e => e.result.min)

/-- Follows the spec's words: the max latencies of the GET-bucket Results
with total > 0. -/
def getPosMaxs (l : List Exec) : List ℕ :=
  ((getsOf l).filter (fun e => decide (0 < e.result.total))).map (fun e => e.result.max)

/-- Follows the spec's words: the min latencies of the PUT-bucket Results
with total > 0. -/
def putPosMins (l : List Exec) : List ℕ :=
  ((putsOf l).filter (fun e => decide (0 < e.result.total))).map (fun e => e.result.min)

/-- Follows the spec's words: the max latencies of the PUT-bucket Results
with total > 0. -/
def putPosMaxs (l : List Exec) : List ℕ :=
  ((putsOf l).filter (fun e => decide (0 < e.result.total))).map (fun e => e.result.max)

/-- A GET executor whose Report() returned an error and an all-zero Result. -/
def errExec : Exec :=
  ⟨"GET", ⟨0, 0, 0, 0, 0⟩, true⟩

/-- Two GET executors: one with 5 requests and min/max latency 10, then one
with no completed requests (all fields zero). -/
def cex3 : List Exec :=
  [⟨"GET", ⟨5, 0, 0, 10, 10⟩, false⟩, ⟨"GET", ⟨0, 0, 0, 0, 0⟩, false⟩]

/-- A GET executor with 5 requests and min latency 10. -/
def e5 : Exec :=
  ⟨"GET", ⟨5, 0, 0, 10, 10⟩, false⟩

/-- Three GET executors: 5 requests at latency 10, an idle one with all-zero
fields, then 7 requests at latency 20. -/
def cex5 : List Exec :=
  [e5, ⟨"GET", ⟨0, 0, 0, 0, 0⟩, false⟩, ⟨"GET", ⟨7, 0, 0, 20, 20⟩, false⟩]

/-- A small error-free run: one GET executor and one PUT executor, both with
completed requests and positive latencies. -/
def wit3 : List Exec :=
  [⟨"GET", ⟨5, 3, 100, 10, 20⟩, false⟩, ⟨"PUT", ⟨2, 1, 50, 8, 9⟩, false⟩]

/-- One GET executor whose Report() returned an error. -/
def wit9a : List Exec :=
  [⟨"GET", ⟨10, 5, 100, 50, 200⟩, true⟩]

/-- The same executor Result as wit9a but with no Report() error. -/
def wit9b : List Exec :=
  [⟨"GET", ⟨10, 5, 100, 50, 200⟩, false⟩]

lemma step_requests (s : AggState) (e : Exec) :
    (step s e).requests = s.requests + e.result.total := by
  by_cases h : e.wtype = "GET" <;> simp [step, h]

lemma step_iops (s : AggState) (e : Exec) :
    (step s e).iops = s.iops + e.result.iops := by
  by_cases h : e.wtype = "GET" <;> simp [step, h]

lemma loop_requests (l : List Exec) :
    ∀ s : AggState,
      (List.foldl step s l).requests = s.requests + (l.map fun e => e.result.total).sum := by
  induction l with
  | nil => intro s; simp
  | cons e t ih =>
    intro s
    simp [List.foldl_cons, ih, step_requests]
    omega

lemma loop_iops (l : List Exec) :
    ∀ s : AggState,
      (List.foldl step s l).iops = s.iops + (l.map fun e => e.result.iops).sum := by
  induction l with
  | nil => intro s; simp
  | cons e t ih =>
    intro s
    simp [List.foldl_cons, ih, step_iops]
    omega

lemma loop_get_requests (l : List Exec) :
    ∀ s : AggState,
      (List.foldl step s l).get_requests =
        s.get_requests + ((getsOf l).map fun e => e.result.total).sum := by
  induction l with
  | nil => intro s; simp [getsOf]
  | cons e t ih =>
    intro s
    by_cases h : e.wtype = "GET" <;>
      simp [List.foldl_cons, ih, step, h, getsOf, List.filter_cons] <;> omega

lemma loop_put_requests (l : List Exec) :
    ∀ s : AggState,
      (List.foldl step s l).put_requests =
        s.put_requests + ((putsOf l).map fun e => e.result.total).sum := by
  induction l with
  | nil => intro s; simp [putsOf]
  | cons e t ih =>
    intro s
    by_cases h : e.wtype = "GET" <;>
      simp [List.foldl_cons, ih, step, h, putsOf, List.filter_cons] <;> omega

lemma loop_get_iops (l : List Exec) :
    ∀ s : AggState,
      (List.foldl step s l).get_iops =
        s.get_iops + ((getsOf l).map fun e => e.result.iops).sum := by
  induction l with
  | nil => intro s; simp [getsOf]
  | cons e t ih =>
    intro s
    by_cases h : e.wtype = "GET" <;>
      simp [List.foldl_cons, ih, step, h, getsOf, List.filter_cons] <;> omega

lemma loop_put_iops (l : List Exec) :
    ∀ s : AggState,
      (List.foldl step s l).put_iops =
        s.put_iops + ((putsOf l).map fun e => e.result.iops).sum := by
  induction l with
  | nil => intro s; simp [putsOf]
  | cons e t ih =>
    intro s
    by_cases h : e.wtype = "GET" <;>
      simp [List.foldl_cons, ih, step, h, putsOf, List.filter_cons] <;> omega

lemma loop_get_avg_lat (l : List Exec) :
    ∀ s : AggState,
      (List.foldl step s l).get_avg_lat =
        s.get_avg_lat + ((getsOf l).map fun e => e.result.avg * e.result.total).sum := by
  induction l with
  | nil => intro s; simp [getsOf]
  | cons e t ih =>
    intro s
    by_cases h : e.wtype = "GET" <;>
      simp [List.foldl_cons, ih, step, h, getsOf, List.filter_cons] <;> omega

lemma loop_put_avg_lat (l : List Exec) :
    ∀ s : AggState,
      (List.foldl step s l).put_avg_lat =
        s.put_avg_lat + ((putsOf l).map fun e => e.result.avg * e.result.total).sum := by
  induction l with
  | nil => intro s; simp [putsOf]
  | cons e t ih =>
    intro s
    by_cases h : e.wtype = "GET" <;>
      simp [List.foldl_cons, ih, step, h, putsOf, List.filter_cons] <;> omega

lemma loop_get_lat_max (l : List Exec) :
    ∀ s : AggState,
      (List.foldl step s l).get_lat_max =
        ((getsOf l).map fun e => e.result.max).foldl maxMerge s.get_lat_max := by
  induction l with
  | nil => intro s; simp [getsOf]
  | cons e t ih =>
    intro s
    by_cases h : e.wtype = "GET" <;>
      simp [List.foldl_cons, ih, step, h, getsOf, List.filter_cons]

lemma loop_put_lat_max (l : List Exec) :
    ∀ s : AggState,
      (List.foldl step s l).put_lat_max =
        ((putsOf l).map fun e => e.result.max).foldl maxMerge s.put_lat_max := by
  induction l with
  | nil => intro s; simp [putsOf]
  | cons e t ih =>
    intro s
    by_cases h : e.wtype = "GET" <;>
      simp [List.foldl_cons, ih, step, h, putsOf, List.filter_cons]

lemma loop_get_lat_min (l : List Exec) :
    ∀ s : AggState,
      (List.foldl step s l).get_lat_min =
        ((getsOf l).map fun e => e.result.min).foldl minMerge s.get_lat_min := by
  induction l with
  | nil => intro s; simp [getsOf]
  | cons e t ih =>
    intro s
    by_cases h : e.wtype = "GET" <;>
      simp [List.foldl_cons, ih, step, h, getsOf, List.filter_cons]

lemma loop_put_lat_min (l : List Exec) :
    ∀ s : AggState,
      (List.foldl step s l).put_lat_min =
        ((putsOf l).map fun e => e.result.min).foldl minMerge s.put_lat_min := by
  induction l with
  | nil => intro s; simp [putsOf]
  | cons e t ih =>
    intro s
    by_cases h : e.wtype = "GET" <;>
      simp [List.foldl_cons, ih, step, h, putsOf, List.filter_cons]

lemma finalize_requests (s : AggState) : (finalize s).requests = s.requests := rfl

lemma finalize_get_requests (s : AggState) : (finalize s).get_requests = s.get_requests := rfl

lemma finalize_put_requests (s : AggState) : (finalize s).put_requests = s.put_requests := rfl

lemma finalize_iops (s : AggState) : (finalize s).iops = s.iops := rfl

lemma finalize_get_iops (s : AggState) : (finalize s).get_iops = s.get_iops := rfl

lemma finalize_put_iops (s : AggState) : (finalize s).put_iops = s.put_iops := rfl

lemma finalize_get_lat_min (s : AggState) : (finalize s).get_lat_min = s.get_lat_min := rfl

lemma finalize_put_lat_min (s : AggState) : (finalize s).put_lat_min = s.put_lat_min := rfl

lemma finalize_get_lat_max (s : AggState) : (finalize s).get_lat_max = s.get_lat_max := rfl

lemma finalize_put_lat_max (s : AggState) : (finalize s).put_lat_max = s.put_lat_max := rfl

lemma finalize_get_avg_lat (s : AggState) :
    (finalize s).get_avg_lat =
      if s.get_requests ≠ 0 then s.get_avg_lat / s.get_requests else s.get_avg_lat := rfl

lemma finalize_put_avg_lat (s : AggState) :
    (finalize s).put_avg_lat =
      if s.put_requests ≠ 0 then s.put_avg_lat / s.put_requests else s.put_avg_lat := rfl

lemma sum_map_filter_partition {α : Type} (p : α → Bool) (f : α → ℕ) (l : List α) :
    ((l.filter p).map f).sum + ((l.filter fun a => !(p a)).map f).sum = (l.map f).sum := by
  induction l with
  | nil => simp
  | cons a t ih =>
    cases hp : p a <;> simp [List.filter_cons, hp] <;> omega

lemma maxMerge_eq_max (m x : ℕ) : maxMerge m x = max m x := by
  unfold maxMerge
  rcases lt_or_le m x with h | h
  · rw [if_pos h, max_eq_right h.le]
  · rw [if_neg (not_lt.mpr h), max_eq_left h]

lemma minMerge_zero (x : ℕ) : minMerge 0 x = x := by
  simp [minMerge]

lemma minMerge_pos (m x : ℕ) (hm : m ≠ 0) : minMerge m x = min m x := by
  unfold minMerge
  rw [if_neg hm]
  split <;> omega

lemma foldl_maxMerge_eq (l : List ℕ) (b : ℕ) : l.foldl maxMerge b = l.foldl max b := by
  induction l generalizing b with
  | nil => rfl
  | cons x t ih => simp [List.foldl_cons, maxMerge_eq_max, ih]

lemma foldl_minMerge_eq (l : List ℕ) :
    ∀ b : ℕ, 0 < b → (∀ x ∈ l, 0 < x) → l.foldl minMerge b = l.foldl min b := by
  induction l with
  | nil => intro b _ _; rfl
  | cons x t ih =>
    intro b hb hl
    have hx : 0 < x := hl x (by simp)
    rw [List.foldl_cons, List.foldl_cons, minMerge_pos b x hb.ne.symm]
    exact ih (min b x) (lt_min hb hx) fun y hy => hl y (by simp [hy])

lemma le_foldl_max (l : List ℕ) : ∀ b : ℕ, b ≤ l.foldl max b := by
  induction l with
  | nil => intro b; exact le_rfl
  | cons x t ih =>
    intro b
    exact le_trans (le_max_left b x) (ih (max b x))

lemma mem_le_foldl_max (l : List ℕ) (x : ℕ) (h : x ∈ l) : ∀ b : ℕ, x ≤ l.foldl max b := by
  induction l with
  | nil => cases h
  | cons y t ih =>
    intro b
    rcases List.mem_cons.mp h with rfl | h2
    · exact le_trans (le_max_right b x) (le_foldl_max t (max b x))
    · exact ih h2 (max b y)

lemma foldl_min_le_self (l : List ℕ) : ∀ b : ℕ, l.foldl min b ≤ b := by
  induction l with
  | nil => intro b; exact le_rfl
  | cons x t ih =>
    intro b
    exact le_trans (ih (min b x)) (min_le_left b x)

lemma foldl_min_le_mem (l : List ℕ) (x : ℕ) (h : x ∈ l) : ∀ b : ℕ, l.foldl min b ≤ x := by
  induction l with
  | nil => cases h
  | cons y t ih =>
    intro b
    rcases List.mem_cons.mp h with rfl | h2
    · exact le_trans (foldl_min_le_self t (min b x)) (min_le_right b x)
    · exact ih h2 (min b y)

lemma foldl_minMerge_zero_eq_spec (ms : List ℕ) (h : ∀ x ∈ ms, 0 < x) :
    ms.foldl minMerge 0 = spec_min ms := by
  cases ms with
  | nil => rfl
  | cons x t =>
    rw [List.foldl_cons, minMerge_zero]
    simp only [spec_min]
    exact foldl_minMerge_eq t x (h x (by simp)) fun y hy => h y (by simp [hy])

lemma foldl_max_map_filter {α : Type} (p : α → Bool) (f : α → ℕ) (l : List α)
    (h : ∀ a ∈ l, p a = false → f a = 0) :
    ∀ b : ℕ, ((l.filter p).map f).foldl max b = (l.map f).foldl max b := by
  induction l with
  | nil => intro b; rfl
  | cons a t ih =>
    intro b
    have ht : ∀ a ∈ t, p a = false → f a = 0 := fun a ha => h a (by simp [ha])
    cases hp : p a with
    | true =>
      simp only [List.filter_cons, hp, if_pos, List.map_cons, List.foldl_cons]
      exact ih ht (max b (f a))
    | false =>
      simp only [List.filter_cons, hp, List.map_cons, List.foldl_cons, Bool.false_eq_true,
        if_false, h a (by simp) hp, Nat.max_zero]
      exact ih ht b

lemma step_clearErr (s : AggState) (e : Exec) : step s (clearErr e) = step s e := rfl

lemma loop_map_clearErr (l : List Exec) : ∀ s : AggState,
    List.foldl step s (l.map clearErr) = List.foldl step s l := by
  induction l with
  | nil => intro s; rfl
  | cons e t ih =>
    intro s
    rw [List.map_cons, List.foldl_cons, List.foldl_cons, step_clearErr]
    exact ih (step s e)

lemma agg_requests (l : List Exec) :
    (aggState l).requests = (l.map fun e => e.result.total).sum := by
  have h := loop_requests l initState
  rw [show initState.requests = 0 from rfl, zero_add] at h
  exact h

lemma agg_get_requests (l : List Exec) :
    (aggState l).get_requests = ((getsOf l).map fun e => e.result.total).sum := by
  have h := loop_get_requests l initState
  rw [show initState.get_requests = 0 from rfl, zero_add] at h
  exact h

lemma agg_put_requests (l : List Exec) :
    (aggState l).put_requests = ((putsOf l).map fun e => e.result.total).sum := by
  have h := loop_put_requests l initState
  rw [show initState.put_requests = 0 from rfl, zero_add] at h
  exact h

lemma agg_iops (l : List Exec) :
    (aggState l).iops = (l.map fun e => e.result.iops).sum := by
  have h := loop_iops l initState
  rw [show initState.iops = 0 from rfl, zero_add] at h
  exact h

lemma agg_get_iops (l : List Exec) :
    (aggState l).get_iops = ((getsOf l).map fun e => e.result.iops).sum := by
  have h := loop_get_iops l initState
  rw [show initState.get_iops = 0 from rfl, zero_add] at h
  exact h

lemma agg_put_iops (l : List Exec) :
    (aggState l).put_iops = ((putsOf l).map fun e => e.result.iops).sum := by
  have h := loop_put_iops l initState
  rw [show initState.put_iops = 0 from rfl, zero_add] at h
  exact h

lemma agg_get_lat_max (l : List Exec) :
    (aggState l).get_lat_max = ((getsOf l).map fun e => e.result.max).foldl maxMerge 0 := by
  have h := loop_get_lat_max l initState
  rw [show initState.get_lat_max = 0 from rfl] at h
  exact h

lemma agg_put_lat_max (l : List Exec) :
    (aggState l).put_lat_max = ((putsOf l).map fun e => e.result.max).foldl maxMerge 0 := by
  have h := loop_put_lat_max l initState
  rw [show initState.put_lat_max = 0 from rfl] at h
  exact h

lemma agg_get_lat_min (l : List Exec) :
    (aggState l).get_lat_min = ((getsOf l).map fun e => e.result.min).foldl minMerge 0 := by
  have h := loop_get_lat_min l initState
  rw [show initState.get_lat_min = 0 from rfl] at h
  exact h

lemma agg_put_lat_min (l : List Exec) :
    (aggState l).put_lat_min = ((putsOf l).map fun e => e.result.min).foldl minMerge 0 := by
  have h := loop_put_lat_min l initState
  rw [show initState.put_lat_min = 0 from rfl] at h
  exact h

lemma agg_get_avg_lat (l : List Exec) :
    (aggState l).get_avg_lat =
      if ((getsOf l).map fun e => e.result.total).sum ≠ 0 then
        ((getsOf l).map fun e => e.result.avg * e.result.total).sum /
          ((getsOf l).map fun e => e.result.total).sum
      else ((getsOf l).map fun e => e.result.avg * e.result.total).sum := by
  have h1 := loop_get_requests l initState
  have h2 := loop_get_avg_lat l initState
  rw [show initState.get_requests = 0 from rfl, zero_add] at h1
  rw [show initState.get_avg_lat = 0 from rfl, zero_add] at h2
  show (finalize (loop l)).get_avg_lat = _
  rw [finalize_get_avg_lat,
    show (loop l).get_requests = ((getsOf l).map fun e => e.result.total).sum from h1,
    show (loop l).get_avg_lat =
      ((getsOf l).map fun e => e.result.avg * e.result.total).sum from h2]

lemma agg_put_avg_lat (l : List Exec) :
    (aggState l).put_avg_lat =
      if ((putsOf l).map fun e => e.result.total).sum ≠ 0 then
        ((putsOf l).map fun e => e.result.avg * e.result.total).sum /
          ((putsOf l).map fun e => e.result.total).sum
      else ((putsOf l).map fun e => e.result.avg * e.result.total).sum := by
  have h1 := loop_put_requests l initState
  have h2 := loop_put_avg_lat l initState
  rw [show initState.put_requests = 0 from rfl, zero_add] at h1
  rw [show initState.put_avg_lat = 0 from rfl, zero_add] at h2
  show (finalize (loop l)).put_avg_lat = _
  rw [finalize_put_avg_lat,
    show (loop l).put_requests = ((putsOf l).map fun e => e.result.total).sum from h1,
    show (loop l).put_avg_lat =
      ((putsOf l).map fun e => e.result.avg * e.result.total).sum from h2]

lemma map_clearErr_eq_map_observables (l : List Exec) :
    l.map clearErr = (l.map observables).map (fun o => ⟨o.1, o.2, false⟩) := by
  induction l with
  | nil => rfl
  | cons e t ih => simp [ih, clearErr, observables]

lemma map_ext_on {α β : Type} (f g : α → β) (l : List α) (h : ∀ a ∈ l, f a = g a) :
    l.map f = l.map g := by
  induction l with
  | nil => rfl
  | cons a t ih => simp [h a (by simp), ih fun a ha => h a (by simp [ha])]

lemma foldl_minMerge_zero_le (ms : List ℕ) (h : ∀ x ∈ ms, 0 < x) (x : ℕ) (hx : x ∈ ms) :
    ms.foldl minMerge 0 ≤ x := by
  rw [foldl_minMerge_zero_eq_spec ms h]
  cases ms with
  | nil => cases hx
  | cons y t =>
    simp only [spec_min]
    rcases List.mem_cons.mp hx with rfl | h2
    · exact foldl_min_le_self t x
    · exact foldl_min_le_mem t x h2 y

lemma id_list_length : ∀ (n : ℕ) (s : ℤ), (id_list n s).length = n := by
  intro n
  induction n with
  | zero => intro s; rfl
  | succ n ih => intro s; simp [id_list, ih]

lemma int32wrap_wrap_add_one (z : ℤ) : int32wrap (int32wrap z + 1) = int32wrap (z + 1) := by
  unfold int32wrap
  omega

lemma int32wrap_eq_self (z : ℤ) (h1 : -(2 ^ 31) ≤ z) (h2 : z < 2 ^ 31) : int32wrap z = z := by
  unfold int32wrap
  omega

lemma id_list_get? : ∀ (n : ℕ) (z : ℤ) (k : ℕ), k < n →
    (id_list n (int32wrap z)).get? k = some (int32wrap (z + k)) := by
  intro n
  induction n with
  | zero => intro z k hk; omega
  | succ n ih =>
    intro z k hk
    have hstep : id_list (n + 1) (int32wrap z) =
        int32wrap z :: id_list n (int32wrap (z + 1)) := by
      simp [id_list, get_workload_id, int32wrap_wrap_add_one]
    rw [hstep]
    cases k with
    | zero => simp
    | succ k =>
      have h := ih (z + 1) k (by omega)
      have harg : z + 1 + (k : ℤ) = z + ((k + 1 : ℕ) : ℤ) := by push_cast; ring
      rw [List.get?_cons_succ, h, harg]

lemma id_list_get?_zero (n k : ℕ) (hk : k < n) :
    (id_list n 0).get? k = some (int32wrap k) := by
  have hw : int32wrap 0 = 0 := by norm_num [int32wrap]
  have h := id_list_get? n 0 k hk
  rw [hw] at h
  simpa using h

lemma id_list_no_wrap : ∀ (n : ℕ) (z : ℤ), -(2 ^ 31) ≤ z → z + n ≤ 2 ^ 31 →
    id_list n (int32wrap z) = (List.range n).map (fun k : ℕ => z + (k : ℤ)) := by
  intro n
  induction n with
  | zero => intro z h1 h2; simp [id_list]
  | succ n ih =>
    intro z h1 h2
    have hzlt : z < 2 ^ 31 := by push_cast at h2; omega
    have hz : int32wrap z = z := int32wrap_eq_self z h1 hzlt
    have hstep : id_list (n + 1) (int32wrap z) =
        int32wrap z :: id_list n (int32wrap (z + 1)) := by
      simp [id_list, get_workload_id, int32wrap_wrap_add_one]
    rw [hstep, hz, ih (z + 1) (by omega) (by push_cast at h2 ⊢; omega)]
    rw [List.range_succ_eq_map, List.map_cons, List.map_map]
    congr 1
    · norm_num
    · refine map_ext_on _ _ _ ?_
      intro a _
      simp only [Function.comp]
      push_cast
      ring

/-- Claim C1, counterexample: a run whose single executor reported an error
makes report() return 2, yet the process exit status is 1, not the claimed 2,
because exit(2) panics and the deferred handle_exit recovers and calls
os.Exit(1). -/
theorem C1_counterexample :
    (report [errExec]).2 = 2 ∧ processExitStatus [errExec] ≠ 2 := by
  decide

/-- Claim C1, amended: report() returns 2 exactly when at least one Executor's
Report() returned an error, but the process then exits with status 1 (exit
panics on any non-zero code and handle_exit turns the panic into os.Exit(1));
with no Executor error the process exits with status 0. -/
theorem C1_amended (l : List Exec) :
    (0 < errCount l ↔ ∃ e ∈ l, e.err = true) ∧
    (report l).2 = (if 0 < errCount l then 2 else 0) ∧
    processExitStatus l = (if 0 < errCount l then 1 else 0) := by
  refine ⟨?_, rfl, ?_⟩
  · simp [errCount, List.countP_pos_iff]
  · rcases Nat.eq_zero_or_pos (errCount l) with h | h
    · simp [processExitStatus, report, h]
    · simp [processExitStatus, report, h]

/-- Claim C2: the GET-bucket and PUT-bucket request counts sum to the sum of
all executors' totals, and that sum is exactly the overall request counter:
every Result's total lands in exactly one of the two buckets. -/
theorem C2_requests_partition (l : List Exec) :
    (aggState l).get_requests + (aggState l).put_requests =
      (l.map fun e => e.result.total).sum ∧
    (aggState l).requests = (l.map fun e => e.result.total).sum := by
  constructor
  · rw [agg_get_requests, agg_put_requests]
    exact sum_map_filter_partition (fun e => decide (e.wtype = "GET"))
      (fun e => e.result.total) l
  · exact agg_requests l

/-- Claim C6: an Executor-level error is advisory.  The report file content is
unchanged when every error flag is dropped, so an erroring executor's Result is
aggregated exactly like a clean one; the overall request counter contains the
totals of erroring and non-erroring executors alike; and report() returns the
non-zero code 2 exactly when some executor reported an error, after the full
content has been produced. -/
theorem C6_error_advisory (l : List Exec) :
    (report l).1 = (report (l.map clearErr)).1 ∧
    (aggState l).requests =
      ((l.filter fun e => e.err).map fun e => e.result.total).sum +
      ((l.filter fun e => !e.err).map fun e => e.result.total).sum ∧
    (report l).2 = (if 0 < errCount l then 2 else 0) := by
  refine ⟨?_, ?_, rfl⟩
  · show reportContent (aggState l) = reportContent (aggState (l.map clearErr))
    unfold aggState loop
    rw [loop_map_clearErr l initState]
  · rw [sum_map_filter_partition (fun e => e.err) (fun e => e.result.total) l]
    exact agg_requests l

/-- Claim C7: each bucket's iops is the sum of its Results' iops, the overall
iops is the sum over all executors, and hence the overall iops is the sum of
the two buckets' iops. -/
theorem C7_iops_sums (l : List Exec) :
    (aggState l).get_iops = ((getsOf l).map fun e => e.result.iops).sum ∧
    (aggState l).put_iops = ((putsOf l).map fun e => e.result.iops).sum ∧
    (aggState l).iops = (l.map fun e => e.result.iops).sum ∧
    (aggState l).iops = (aggState l).get_iops + (aggState l).put_iops := by
  refine ⟨agg_get_iops l, agg_put_iops l, agg_iops l, ?_⟩
  rw [agg_iops, agg_get_iops, agg_put_iops]
  exact (sum_map_filter_partition (fun e => decide (e.wtype = "GET"))
    (fun e => e.result.iops) l).symm

/-- Claim C9: aggregation is deterministic; the report file content is a
function of the ordered sequence of (workload type, Result) pairs alone, so
two report computations over the same Result set produce byte-identical
content. -/
theorem C9_deterministic (l1 l2 : List Exec)
    (h : l1.map observables = l2.map observables) :
    (report l1).1 = (report l2).1 := by
  have hc : l1.map clearErr = l2.map clearErr := by
    rw [map_clearErr_eq_map_observables l1, map_clearErr_eq_map_observables l2, h]
  show reportContent (aggState l1) = reportContent (aggState l2)
  unfold aggState loop
  rw [← loop_map_clearErr l1 initState, ← loop_map_clearErr l2 initState, hc]

/-- Claim C9, witness: two runs whose executors carry the same type and
Result but different error flags produce byte-identical report content. -/
theorem C9_witness : (report wit9a).1 = (report wit9b).1 :=
  C9_deterministic wit9a wit9b (by decide)

/-- Claim C10: report latencies are truncated integer microseconds.  The
seventh line of the report file is the GET min latency rendered as nanoseconds
divided by 1000; a merged latency strictly below one microsecond prints as
0usec, and any fractional microsecond remainder is discarded (rounded toward
zero). -/
theorem C10_usec_truncation (s : AggState) (q r : ℕ)
    (h : s.get_lat_min < 1000) (hr : r < 1000) :
    (reportLines s).get? 6 = some "overall_lat_min=0usec\n" ∧
    usec_line "overall_lat_avg=" (q * 1000 + r) =
      "overall_lat_avg=" ++ toString q ++ "usec\n" := by
  constructor
  · have hline : usec_line "overall_lat_min=" s.get_lat_min =
        "overall_lat_min=0usec\n" := by
      unfold usec_line
      rw [Nat.div_eq_of_lt h]
      rfl
    show some (usec_line "overall_lat_min=" s.get_lat_min) =
      some "overall_lat_min=0usec\n"
    rw [hline]
  · unfold usec_line
    rw [show q * 1000 + r = 1000 * q + r by ring, Nat.mul_add_div (by norm_num),
      Nat.div_eq_of_lt hr, Nat.add_zero]

/-- Claim C10, witness: at the all-zero aggregate state the GET min line is
0usec, and 7123 nanoseconds render as 7usec. -/
theorem C10_witness :
    (reportLines initState).get? 6 = some "overall_lat_min=0usec\n" ∧
    usec_line "overall_lat_avg=" (7 * 1000 + 123) =
      "overall_lat_avg=" ++ toString 7 ++ "usec\n" :=
  C10_usec_truncation initState 7 123 (by decide) (by decide)

/-- Claim C3, counterexample: a GET Result with total 5 and min 10 followed by
a zero-total Result (all fields zero, per the data model) gives a merged GET
min of 0, not the claimed 10: the merge never tests total, and the zero min of
the empty Result trips the m > x branch and drags the accumulator back to the
unset sentinel. -/
theorem C3_counterexample :
    spec_min (getPosMins cex3) = 10 ∧ (aggState cex3).get_lat_min = 0 ∧
    (aggState cex3).get_lat_min ≠ spec_min (getPosMins cex3) := by
  decide

/-- Claim C3, amended: zero-total Results are not excluded from the merges by
any test on total.  The max merge still satisfies the claim whenever
zero-total Results carry a zero max (as the data model guarantees), because a
zero never wins the max fold; the min merge satisfies the claim only under the
stronger condition that every Result of the list has positive total and
positive min, since any zero min resets the sentinel accumulator. -/
theorem C3_amended (l : List Exec) :
    ((∀ e ∈ l, e.result.total = 0 → e.result.max = 0) →
      (aggState l).get_lat_max = spec_max (getPosMaxs l) ∧
      (aggState l).put_lat_max = spec_max (putPosMaxs l)) ∧
    ((∀ e ∈ l, 0 < e.result.total ∧ 0 < e.result.min) →
      (aggState l).get_lat_min = spec_min (getPosMins l) ∧
      (aggState l).put_lat_min = spec_min (putPosMins l)) := by
  constructor
  · intro hmax
    constructor
    · rw [agg_get_lat_max, foldl_maxMerge_eq]
      have h' : ∀ a ∈ getsOf l, decide (0 < a.result.total) = false → a.result.max = 0 := by
        intro a ha hd
        exact hmax a (List.mem_filter.mp ha).1
          (Nat.eq_zero_of_not_pos (of_decide_eq_false hd))
      exact (foldl_max_map_filter (fun e => decide (0 < e.result.total))
        (fun e => e.result.max) (getsOf l) h' 0).symm
    · rw [agg_put_lat_max, foldl_maxMerge_eq]
      have h' : ∀ a ∈ putsOf l, decide (0 < a.result.total) = false → a.result.max = 0 := by
        intro a ha hd
        exact hmax a (List.mem_filter.mp ha).1
          (Nat.eq_zero_of_not_pos (of_decide_eq_false hd))
      exact (foldl_max_map_filter (fun e => decide (0 < e.result.total))
        (fun e => e.result.max) (putsOf l) h' 0).symm
  · intro hmin
    constructor
    · rw [agg_get_lat_min]
      have hfil : (getsOf l).filter (fun e => decide (0 < e.result.total)) = getsOf l :=
        List.filter_eq_self.mpr fun a ha =>
          decide_eq_true (hmin a (List.mem_filter.mp ha).1).1
      show ((getsOf l).map fun e => e.result.min).foldl minMerge 0 = spec_min (getPosMins l)
      unfold getPosMins
      rw [hfil]
      refine foldl_minMerge_zero_eq_spec _ ?_
      intro x hx
      rcases List.mem_map.mp hx with ⟨e, he, rfl⟩
      exact (hmin e (List.mem_filter.mp he).1).2
    · rw [agg_put_lat_min]
      have hfil : (putsOf l).filter (fun e => decide (0 < e.result.total)) = putsOf l :=
        List.filter_eq_self.mpr fun a ha =>
          decide_eq_true (hmin a (List.mem_filter.mp ha).1).1
      show ((putsOf l).map fun e => e.result.min).foldl minMerge 0 = spec_min (putPosMins l)
      unfold putPosMins
      rw [hfil]
      refine foldl_minMerge_zero_eq_spec _ ?_
      intro x hx
      rcases List.mem_map.mp hx with ⟨e, he, rfl⟩
      exact (hmin e (List.mem_filter.mp he).1).2

/-- Claim C3, witness: on a run with one GET and one PUT executor, both with
positive totals and positive latencies, both buckets' merged extremes equal
the spec-side extremes over the total-positive Results. -/
theorem C3_witness :
    ((aggState wit3).get_lat_max = spec_max (getPosMaxs wit3) ∧
      (aggState wit3).put_lat_max = spec_max (putPosMaxs wit3)) ∧
    ((aggState wit3).get_lat_min = spec_min (getPosMins wit3) ∧
      (aggState wit3).put_lat_min = spec_min (putPosMins wit3)) :=
  ⟨(C3_amended wit3).1 (by decide), (C3_amended wit3).2 (by decide)⟩

/-- Claim C4: each bucket's final average latency is exactly the truncated
weighted average, the sum of avg_i by total_i products divided by the bucket
total when that total is positive, and 0 when the bucket total is zero (in
that case the accumulator itself is a sum of zero products).  The two float64
operations of the source are modelled by exact product and truncating
division, their value whenever the operands stay below 2 to the 53rd. -/
theorem C4_weighted_average (l : List Exec) :
    (aggState l).get_avg_lat =
      (if ((getsOf l).map fun e => e.result.total).sum = 0 then 0
       else ((getsOf l).map fun e => e.result.avg * e.result.total).sum /
         ((getsOf l).map fun e => e.result.total).sum) ∧
    (aggState l).put_avg_lat =
      (if ((putsOf l).map fun e => e.result.total).sum = 0 then 0
       else ((putsOf l).map fun e => e.result.avg * e.result.total).sum /
         ((putsOf l).map fun e => e.result.total).sum) := by
  constructor
  · rw [agg_get_avg_lat]
    rcases Nat.eq_zero_or_pos (((getsOf l).map fun e => e.result.total).sum) with h | h
    · have hW : ((getsOf l).map fun e => e.result.avg * e.result.total).sum = 0 := by
        rw [List.sum_eq_zero_iff]
        intro x hx
        rcases List.mem_map.mp hx with ⟨e, he, rfl⟩
        have ht : e.result.total = 0 :=
          List.sum_eq_zero_iff.mp h e.result.total
            (List.mem_map_of_mem (fun e => e.result.total) he)
        simp [ht]
      simp [h, hW]
    · simp [h, Nat.pos_iff_ne_zero.mp h]
  · rw [agg_put_avg_lat]
    rcases Nat.eq_zero_or_pos (((putsOf l).map fun e => e.result.total).sum) with h | h
    · have hW : ((putsOf l).map fun e => e.result.avg * e.result.total).sum = 0 := by
        rw [List.sum_eq_zero_iff]
        intro x hx
        rcases List.mem_map.mp hx with ⟨e, he, rfl⟩
        have ht : e.result.total = 0 :=
          List.sum_eq_zero_iff.mp h e.result.total
            (List.mem_map_of_mem (fun e => e.result.total) he)
        simp [ht]
      simp [h, hW]
    · simp [h, Nat.pos_iff_ne_zero.mp h]

/-- Claim C5, counterexample: with GET Results (total 5, min 10), a zero-total
all-zero Result, then (total 7, min 20), the merged GET min is 20: the zero
min reset the sentinel and the merge re-seeded from the last Result, so the
reported min does not bound the min of the first total-positive Result. -/
theorem C5_counterexample :
    e5 ∈ cex5 ∧ 0 < e5.result.total ∧ (aggState cex5).get_lat_min = 20 ∧
    ¬ ((aggState cex5).get_lat_min ≤ e5.result.min) := by
  decide

/-- Claim C5, amended: for every Result merged into a bucket, its max is
bounded by the bucket max, unconditionally; its min bounds the bucket min
provided every merged Result carries a positive min, which rules out both
zero-total Results (whose zeroed min resets the sentinel merge) and genuine
zero-latency minima. -/
theorem C5_amended (l : List Exec) (e : Exec) (he : e ∈ l) :
    (e.wtype = "GET" →
      e.result.max ≤ (aggState l).get_lat_max ∧
      ((∀ x ∈ l, 0 < x.result.min) → (aggState l).get_lat_min ≤ e.result.min)) ∧
    (¬ e.wtype = "GET" →
      e.result.max ≤ (aggState l).put_lat_max ∧
      ((∀ x ∈ l, 0 < x.result.min) → (aggState l).put_lat_min ≤ e.result.min)) := by
  constructor
  · intro hty
    have hmem : e ∈ getsOf l := List.mem_filter.mpr ⟨he, decide_eq_true hty⟩
    constructor
    · rw [agg_get_lat_max, foldl_maxMerge_eq]
      exact mem_le_foldl_max _ e.result.max
        (List.mem_map_of_mem (fun e => e.result.max) hmem) 0
    · intro hpos
      rw [agg_get_lat_min]
      refine foldl_minMerge_zero_le _ ?_ e.result.min
        (List.mem_map_of_mem (fun e => e.result.min) hmem)
      intro x hx
      rcases List.mem_map.mp hx with ⟨a, ha, rfl⟩
      exact hpos a (List.mem_filter.mp ha).1
  · intro hty
    have hmem : e ∈ putsOf l := List.mem_filter.mpr ⟨he, by simp [hty]⟩
    constructor
    · rw [agg_put_lat_max, foldl_maxMerge_eq]
      exact mem_le_foldl_max _ e.result.max
        (List.mem_map_of_mem (fun e => e.result.max) hmem) 0
    · intro hpos
      rw [agg_put_lat_min]
      refine foldl_minMerge_zero_le _ ?_ e.result.min
        (List.mem_map_of_mem (fun e => e.result.min) hmem)
      intro x hx
      rcases List.mem_map.mp hx with ⟨a, ha, rfl⟩
      exact hpos a (List.mem_filter.mp ha).1

/-- Claim C5, witness: in the two-executor run wit3 the GET executor with min
latency 10 and max latency 20 is bounded by the merged GET extremes. -/
theorem C5_witness :
    20 ≤ (aggState wit3).get_lat_max ∧ (aggState wit3).get_lat_min ≤ 10 := by
  have h := (C5_amended wit3 ⟨"GET", ⟨5, 3, 100, 10, 20⟩, false⟩ (by decide)).1 (by decide)
  exact ⟨h.1, h.2 (by decide)⟩

/-- Claim C8, counterexample: the wl_id counter is an int32, so the sequence
of returned ids is not strictly increasing for every n.  In a sequence of
2 to the 31st plus 1 sequential calls, the call at index 2 to the 31st minus 1
returns 2147483647 while the next call returns -2147483648: the ids are
neither increasing nor equal to 0 to n-1. -/
theorem C8_counterexample :
    (id_list (2 ^ 31 + 1) 0).get? (2 ^ 31) = some (-(2 ^ 31)) ∧
    (id_list (2 ^ 31 + 1) 0).get? (2 ^ 31 - 1) = some (2 ^ 31 - 1) ∧
    ¬ ((2 ^ 31 - 1 : ℤ) < -(2 ^ 31)) := by
  refine ⟨?_, ?_, by norm_num⟩
  · rw [id_list_get?_zero (2 ^ 31 + 1) (2 ^ 31) (by norm_num)]
    norm_num [int32wrap]
  · rw [id_list_get?_zero (2 ^ 31 + 1) (2 ^ 31 - 1) (by norm_num)]
    norm_num [int32wrap]

/-- Claim C8, amended: for every n up to 2 to the 31st, n sequential calls to
get_workload_id starting from the initial counter 0 return exactly
0, 1, ..., n-1 in order, in particular pairwise distinct ids, so every
WorkloadSpec receives a distinct id in any realistic run; beyond 2 to the
31st calls the int32 counter wraps. -/
theorem C8_amended (n : ℕ) (hn : n ≤ 2 ^ 31) :
    id_list n 0 = (List.range n).map (fun k : ℕ => (k : ℤ)) ∧ (id_list n 0).Nodup := by
  have hw : int32wrap 0 = 0 := by norm_num [int32wrap]
  have h := id_list_no_wrap n 0 (by norm_num) (by push_cast; omega)
  rw [hw] at h
  have h' : id_list n 0 = (List.range n).map (fun k : ℕ => (k : ℤ)) := by
    rw [h]
    exact map_ext_on _ _ _ (by intro a _; simp)
  refine ⟨h', ?_⟩
  rw [h']
  exact List.Nodup.map (fun a b hab => Int.natCast_inj.mp hab) (List.nodup_range n)

/-- Claim C8, witness: three sequential calls return 0, 1, 2. -/
theorem C8_witness :
    id_list 3 0 = (List.range 3).map (fun k : ℕ => (k : ℤ)) ∧ (id_list 3 0).Nodup :=
  C8_amended 3 (by norm_num)

end HttpBlaster
